import Mathlib

/-
Shallow embedding of the Catan game core from `src/catan/game.py`
(repository Abdur667/CS182_Final).

Only `game.py` is present in the repository source; the collaborating
modules (`catan.states`, `catan.board`, `catan.pieces`, `undoredo`,
`hexgrid`, `catanlog`) are absent.  Definitions for those are modelled
from the specification and carry a doc comment starting with
"Modelled from the spec:".  Everything else is a direct translation of
`game.py`.

Python object identity matters for the snapshot/restore policy, so the
mutable aggregates (Game, its observer set, its board, and state
objects) carry an explicit identity field `id : Nat`.  Identity is
tracked only where the sharing policy of `Game.__deepcopy__` and
`Game.restore` depends on it; state objects allocated on ordinary
transitions are given identity 0.

Externally observable effects (observer notification fan-outs and
invocations of `Game.end`) are recorded as an explicit event list
returned next to the new game value.
-/

set_option maxRecDepth 4000

namespace Catan

/-- Modelled from the spec: piece kinds (`catan.pieces.PieceType`,
module absent from src).  The robber has no owner. -/
inductive PieceType
  | road
  | settlement
  | city
  | robber
  deriving DecidableEq

/-- Modelled from the spec: the closed variant set of the game-state
machine (`catan.states`, module absent from src).  Pregame and
road-builder placement states carry the piece kind being placed. -/
inductive StateVariant
  | notInGame
  | preGamePlacingPiece (pt : PieceType)
  | beginTurn
  | duringTurnAfterRoll
  | moveRobber
  | moveRobberUsingKnight
  | placingPiece (pt : PieceType)
  deriving DecidableEq

/-- Modelled from the spec: `is_in_game` holds for every variant except
NotInGame. -/
def is_in_game : StateVariant → Bool
  | .notInGame => false
  | _ => true

/-- Modelled from the spec: `is_in_pregame` holds exactly for the
pregame placing states. -/
def is_in_pregame : StateVariant → Bool
  | .preGamePlacingPiece _ => true
  | _ => false

/-- Modelled from the spec: the two dev-card states (`catan.states`,
module absent from src). -/
inductive DevSt
  | notPlayed
  | played
  deriving DecidableEq

/-- Failures raised by the embedded code.  `invalidPlayer` models the
exception raised by `Player.__init__` on a seat outside 1..4 (the spec
calls it InvalidPlayer); `indexError` models the Python IndexError on
`players[0]`; `illegalPlacement` models the board's placement failure;
`nothingToUndo` models the empty-undo-history failure. -/
inductive Err
  | invalidPlayer
  | indexError
  | illegalPlacement
  | nothingToUndo
  | nothingToRedo
  deriving DecidableEq

/-- Observable events: one `notify` per `notify_observers` fan-out, and
one `gameEnd` per invocation of `Game.end` (its end-of-game
evaluation). -/
inductive Ev
  | notify
  | gameEnd
  deriving DecidableEq

/-- Normalization applied by `Player.__init__` to name and color:
lowercased, spaces removed (`name.lower().replace(' ', '')`). -/
def pnorm (s : String) : String :=
  ((s.toList.map Char.toLower).filter (fun c => c ≠ ' ')).asString

/-- Player value type, from `game.py` (`class Player`): seat, name,
color.  Name and color are stored normalized by the constructor
`Player.make` below. -/
structure Player where
  seat : Int
  name : String
  color : String
  deriving DecidableEq

/-- Translation of `Player.__init__`: a seat outside the range 1..4
raises (spec: InvalidPlayer); otherwise the name and color are stored
lowercased with spaces removed. -/
def Player.make (seat : Int) (name color : String) : Except Err Player :=
  if 1 ≤ seat ∧ seat ≤ 4 then
    .ok ⟨seat, pnorm name, pnorm color⟩
  else
    .error .invalidPlayer

/-- Translation of `Player.__eq__`: False on None, False on a
non-Player, otherwise comparison of color, name and seat. -/
def Player.eq (p : Player) : Option Player → Bool
  | none => false
  | some q => p.color == q.color && p.name == q.name && p.seat == q.seat

/-- Translation of `Player.__repr__`: `'{} ({})'.format(color, name)`. -/
def Player.repr (p : Player) : String :=
  p.color ++ " (" ++ p.name ++ ")"

/-- Translation of `Player.__hash__`: the sum of the UTF-8 bytes of the
repr string (`sum(bytes(str(self), encoding='utf8'))`). -/
def Player.hash (p : Player) : Nat :=
  (p.repr.toUTF8.toList.map (fun b => b.toNat)).foldl (fun a b => a + b) 0

/-- A piece: kind plus owner (`catan.pieces.Piece`, module absent from
src; the owner is None for the robber). -/
structure Piece where
  ptype : PieceType
  owner : Option Player
  deriving DecidableEq

/-- Modelled from the spec: the coordinate kind under which the board
keys a piece of the given kind — roads live on edges, settlements and
cities on nodes, the robber on a tile.  The numeric encoding (0 = edge,
1 = node) follows the `(kind, coord)` keys iterated in
`Game.get_random_assignment`. -/
def coordKind : PieceType → Nat
  | .road => 0
  | .settlement => 1
  | .city => 1
  | .robber => 2

/-- A board tile: terrain name, number token, tile id (spec data
model; terrain is represented by its display name, the codomain of the
`vocab` mapping in `Game.evaluate_final`). -/
structure Tile where
  terrain : String
  number : Nat
  tile_id : Nat
  deriving DecidableEq

/-- Modelled from the spec: the Board aggregate (`catan.board`, module
absent from src): tiles, a mapping from (coordinate-kind, coordinate)
to the occupying piece, a per-player record of placed pieces
(`player_to_pieces`, used by `Game.evaluate_final` and the agent
helpers), and a lock flag.  Ports are omitted: no claim concerns them.
The identity field models Python object identity. -/
structure Board where
  id : Nat
  tiles : List Tile
  pieces : List ((Nat × Nat) × Piece)
  player_to_pieces : List (Player × List (Nat × PieceType))
  state_locked : Bool
  deriving DecidableEq

/-- Modelled from the spec: `Board.lock` sets the lock flag
(idempotent). -/
def Board.lock (b : Board) : Board := { b with state_locked := true }

/-- Modelled from the spec: `Board.unlock` clears the lock flag
(idempotent). -/
def Board.unlock (b : Board) : Board := { b with state_locked := false }

/-- Modelled from the spec: `get_pieces(types, coord)` returns the
zero-or-one piece at the coordinate whose kind is in `types` (the board
invariant makes more than one match a corruption bug, not a legal
outcome). -/
def Board.get_pieces (b : Board) (types : List PieceType) (coord : Nat) :
    List Piece :=
  (b.pieces.filter (fun e => e.1.2 == coord && types.contains e.2.ptype)).map
    (fun e => e.2)

/-- Record a newly placed piece under its owner in `player_to_pieces`
(ownerless pieces — the robber — are not recorded). -/
def addOwned (m : List (Player × List (Nat × PieceType)))
    (owner : Option Player) (entry : Nat × PieceType) :
    List (Player × List (Nat × PieceType)) :=
  match owner with
  | none => m
  | some pl =>
    if m.any (fun e => e.1 == pl) then
      m.map (fun e => if e.1 == pl then (e.1, e.2 ++ [entry]) else e)
    else
      m ++ [(pl, [entry])]

/-- Modelled from the spec: `place_piece(piece, coordinate)` records the
piece at the coordinate keyed by its coordinate kind; it fails with
IllegalPlacement if the slot is already occupied or the board is not in
the lock state an in-game placement requires (locked).  The
settlement-to-city replacement path is not modelled: no claim exercises
it. -/
def Board.place_piece (b : Board) (pc : Piece) (coord : Nat) :
    Except Err Board :=
  let kind := coordKind pc.ptype
  if b.state_locked = false then
    .error .illegalPlacement
  else if b.pieces.any (fun e => e.1.1 == kind && e.1.2 == coord) then
    .error .illegalPlacement
  else
    .ok { b with
          pieces := b.pieces ++ [((kind, coord), pc)],
          player_to_pieces := addOwned b.player_to_pieces pc.owner
            (coord, pc.ptype) }

/-- A game-state object: the variant plus the back-reference to the
owning Game (`state.game`), with an identity field for the snapshot
sharing policy.  States allocated on ordinary transitions get identity
0: only the sharing performed by `__deepcopy__`/`restore` is identity-
relevant. -/
structure StateObj where
  id : Nat
  gameRef : Nat
  var : StateVariant
  deriving DecidableEq

/-- State allocation on a transition (`catan.states.GameStateX(self)`). -/
def mkState (gameRef : Nat) (v : StateVariant) : StateObj :=
  ⟨0, gameRef, v⟩

/-- The observer registry: a set of observer handles.  The identity
field models the Python set object's identity; the members are the
observer references themselves. -/
structure ObsSet where
  id : Nat
  members : List Nat
  deriving DecidableEq

/-- The Game aggregate root, translated field-for-field from
`Game.__init__`.  `undo_manager` is stored as the reference (identity)
of the engine: the engine's stacks live outside the Game in `World`
below, which breaks the Python reference cycle (a snapshot shares the
engine by reference and never contains it).  The unused diagnostic
field `terrain_to_tiles` is omitted. -/
structure Game where
  id : Nat
  observers : ObsSet
  undo_manager : Nat
  options_pregame : String
  players : List Player
  board : Board
  robber : Piece
  catanlog_on : Bool
  state : StateObj
  dev_card_state : DevSt
  cur_player : Option Player
  last_roll : Option Nat
  last_player_to_roll : Option Player
  cur_turn : Nat
  robber_tile : Option Nat
  player_to_resources : List (Player × List (List String))
  deriving DecidableEq

/-- Modelled from the spec: the hex-grid coordinate library (external
collaborator, consumed as a pure function library). -/
structure HexLib where
  nodes_touching_tile : Nat → List Nat
  adjacent_tiles_to_node : Nat → List Nat
  legal_tile_ids : List Nat

/-- Translation of `Game.get_cur_player`: the "nobody" sentinel when no
current player is set, otherwise a re-constructed Player from the
stored one.  Re-construction re-normalizes name and color; its seat
check cannot fire for a stored current player (always set through
`set_cur_player`) and is omitted for totality. -/
def get_cur_player (g : Game) : Player :=
  match g.cur_player with
  | none => ⟨1, "nobody", "nobody"⟩
  | some p => ⟨p.seat, pnorm p.name, pnorm p.color⟩

/-- Translation of `Game.set_cur_player`: stores a Player
re-constructed (hence re-checked and re-normalized) from the argument. -/
def set_cur_player (g : Game) (p : Player) : Except Err Game := do
  let p' ← Player.make p.seat p.name p.color
  .ok { g with cur_player := some p' }

/-- Translation of `Game.notify_observers`: one synchronous fan-out over
the registered observers, recorded as a single `Ev.notify` event. -/
def notify_observers (g : Game) : Game × List Ev :=
  (g, [Ev.notify])

/-- Translation of `Game.set_state`: installs the state object, then
re-derives the board lock from the new state (`lock` if `is_in_game`,
`unlock` otherwise), then notifies observers. -/
def set_state (g : Game) (s : StateObj) : Game × List Ev :=
  let g := { g with state := s }
  let g :=
    if is_in_game s.var then { g with board := g.board.lock }
    else { g with board := g.board.unlock }
  (g, [Ev.notify])

/-- Translation of `Game.set_dev_card_state`: installs the dev-card
state and notifies observers. -/
def set_dev_card_state (g : Game) (s : DevSt) : Game × List Ev :=
  ({ g with dev_card_state := s }, [Ev.notify])

/-- Translation of `Game.reset`: clears players and the per-game
counters and assigns a fresh NotInGame state object directly to the
state field — not through `set_state`, so the board lock is not
re-derived — then notifies observers. -/
def reset (g : Game) : Game × List Ev :=
  let g := { g with
    players := [],
    state := mkState g.id .notInGame,
    last_roll := none,
    last_player_to_roll := none,
    cur_player := none,
    cur_turn := 0 }
  (g, [Ev.notify])

/-- Translation of `Game.set_players`: installs the list, then makes
its first element the current player (`self.players[0]` — unguarded, an
IndexError on the empty list), then notifies observers. -/
def set_players (g : Game) (ps : List Player) : Except Err (Game × List Ev) :=
  let g := { g with players := ps }
  match ps with
  | [] => .error .indexError
  | p :: _ => do
    let g ← set_cur_player g p
    .ok (g, [Ev.notify])

/-- Translation of `Game.roll`: records the roll and the roller, then
installs MoveRobber on a 7 and DuringTurnAfterRoll on anything else
(the catanlog call is an external sink and records no game state). -/
def roll (g : Game) (n : Nat) : Game × List Ev :=
  let g := { g with
    last_roll := some n,
    last_player_to_roll := some (get_cur_player g) }
  if n == 7 then set_state g (mkState g.id .moveRobber)
  else set_state g (mkState g.id .duringTurnAfterRoll)

/-- Translation of `Game.play_knight`: marks the dev card played and
installs MoveRobberUsingKnight.  (The `@undoredo.undoable` wrapper's
snapshot bookkeeping lives at the `World` level and changes no Game
field; its trailing `notify_observers` from `Game.do` is not included
in game-level event lists.) -/
def play_knight (g : Game) : Game × List Ev :=
  let (g, e1) := set_dev_card_state g .played
  let (g, e2) := set_state g (mkState g.id .moveRobberUsingKnight)
  (g, e1 ++ e2)

/-- The owner of the first settlement-or-city piece found at a node, as
read by the loop body of `Game.stealable_players`
(`pieces[0].owner` guarded by `if pieces:`). -/
def firstOwnerAt (g : Game) (node : Nat) : Option (Option Player) :=
  (g.board.get_pieces [PieceType.settlement, PieceType.city] node).head?.map
    (fun pc => pc.owner)

/-- Set-insertion as performed by `set.add` on the accumulator of
`stealable_players` (no duplicates). -/
def setAdd (acc : List (Option Player)) (o : Option Player) :
    List (Option Player) :=
  if o ∈ acc then acc else acc ++ [o]

/-- Translation of `Game.stealable_players`: empty when the robber tile
is unset; otherwise the owners of the settlement/city pieces on the
nodes touching the robber tile, with the current player removed if
present. -/
def stealable_players (hex : HexLib) (g : Game) : List (Option Player) :=
  match g.robber_tile with
  | none => []
  | some rt =>
    let stealable := (hex.nodes_touching_tile rt).foldl
      (fun acc node =>
        match firstOwnerAt g node with
        | none => acc
        | some o => setAdd acc o)
      []
    if some (get_cur_player g) ∈ stealable then
      stealable.filter (fun o => o != some (get_cur_player g))
    else
      stealable

/-- Translation of the `terrain_to_tiles` accumulation in
`Game.evaluate_final`: terrain display name to the tile ids bearing it. -/
def terrain_to_tiles (tiles : List Tile) : List (String × List Nat) :=
  tiles.foldl
    (fun acc t =>
      if acc.any (fun e => e.1 == t.terrain) then
        acc.map (fun e =>
          if e.1 == t.terrain then (e.1, e.2 ++ [t.tile_id]) else e)
      else
        acc ++ [(t.terrain, [t.tile_id])])
    []

/-- Translation of the `tile_id_to_terrain_type` table in
`Game.evaluate_final`: the terrain names whose tile lists contain the
given (legal) tile id. -/
def tile_terrains (hex : HexLib) (tiles : List Tile) (tile : Nat) :
    List String :=
  if hex.legal_tile_ids.contains tile then
    ((terrain_to_tiles tiles).filter (fun e => e.2.contains tile)).map
      (fun e => e.1)
  else
    []

/-- Translation of `Game.evaluate_final`: for every player, for every
settlement they placed, the terrain-name lists of the tiles adjacent to
its node. -/
def evaluate_final (hex : HexLib) (tiles : List Tile)
    (pieces : List (Player × List (Nat × PieceType))) :
    List (Player × List (List String)) :=
  pieces.map (fun e =>
    (e.1,
     ((e.2.filter (fun it => it.2 == PieceType.settlement)).map
        (fun it =>
          (hex.adjacent_tiles_to_node it.1).map
            (fun adj => tile_terrains hex tiles adj))).flatten))

/-- Translation of `Game.end` (named `endGame` here; `end` is a Lean
keyword): runs the end-of-game evaluation over the board's piece
ownership (the `log_wins` call is an external sink), installs
NotInGame, and notifies observers.  The invocation itself is recorded
as an `Ev.gameEnd` event. -/
def endGame (hex : HexLib) (g : Game) : Game × List Ev :=
  let g := { g with
    player_to_resources :=
      evaluate_final hex g.board.tiles g.board.player_to_pieces }
  let (g, e1) := set_state g (mkState g.id .notInGame)
  (g, Ev.gameEnd :: (e1 ++ [Ev.notify]))

/-- Does the character sequence `needle` occur inside `hay` (the
Python `in` test on strings)? -/
def containsSeq (needle : List Char) : List Char → Bool
  | [] => needle.isEmpty
  | c :: rest => needle.isPrefixOf (c :: rest) || containsSeq needle rest

/-- The `'agent1' in name` test of `Game.end_turn`. -/
def isAgent1 (name : String) : Bool :=
  containsSeq "agent1".toList name.toList

/-- The `'agent2' in name` test of `Game.end_turn`. -/
def isAgent2 (name : String) : Bool :=
  containsSeq "agent2".toList name.toList

/-- Translation of `Game.end_turn`.  The state machine's `next_player`
and `can_end_game` capabilities live in the absent `catan.states`
module; per the spec they are a pure function of (state variant,
current player, player list) and a predicate of the state variant, and
are taken as the parameters `next` and `canEnd`.  The automated-player
branch at the end (`'agent1' in name` / `'agent2' in name`) re-enters
the placement actions recursively through random choices; automated
players are a declared non-goal of the spec and the branch's effect is
taken as the parameters `agentRandom`/`agentBest`.

Order of operations from the source: log (external sink), advance the
current player via `next_player`, run `end` if `can_end_game()` on the
(unchanged) state, increment the turn counter, reset the dev-card
state, then either install the next pregame placing state (if still in
pregame) or run `end` unconditionally, then the agent branch. -/
def end_turn (hex : HexLib)
    (next : StateVariant → Player → List Player → Player)
    (canEnd : StateVariant → Bool)
    (agentRandom agentBest : Game → Game × List Ev)
    (g : Game) : Except Err (Game × List Ev) := do
  let g ← set_cur_player g (next g.state.var (get_cur_player g) g.players)
  let (g, e1) :=
    if canEnd g.state.var then endGame hex g else (g, [])
  let g := { g with cur_turn := g.cur_turn + 1 }
  let (g, e2) := set_dev_card_state g .notPlayed
  let (g, e3) :=
    if is_in_pregame g.state.var then
      set_state g (mkState g.id (.preGamePlacingPiece .settlement))
    else
      endGame hex g
  let curName := match g.cur_player with
    | none => ""
    | some p => p.name
  let (g, e4) :=
    if isAgent1 curName then
      (if is_in_pregame g.state.var then agentRandom g else (g, []))
    else if isAgent2 curName then
      (if is_in_pregame g.state.var then agentBest g else (g, []))
    else (g, [])
  .ok (g, e1 ++ e2 ++ e3 ++ e4)

/-- Translation of `Game.buy_road`: places a road owned by the current
player, then — in pregame — ends the turn by calling the (undoable-
wrapped) `end_turn`; the wrapper's `Game.do` notifies observers once
after the command runs.  Outside pregame it installs
DuringTurnAfterRoll instead. -/
def buy_road (hex : HexLib)
    (next : StateVariant → Player → List Player → Player)
    (canEnd : StateVariant → Bool)
    (agentRandom agentBest : Game → Game × List Ev)
    (g : Game) (edge : Nat) : Except Err (Game × List Ev) := do
  let pc : Piece := ⟨.road, some (get_cur_player g)⟩
  let b ← g.board.place_piece pc edge
  let g := { g with board := b }
  if is_in_pregame g.state.var then do
    let (g, evs) ← end_turn hex next canEnd agentRandom agentBest g
    .ok (g, evs ++ [Ev.notify])
  else
    .ok (set_state g (mkState g.id .duringTurnAfterRoll))

/-- Translation of `Game.buy_settlement`: places a settlement owned by
the current player, then — in pregame — transitions directly to
placing a road (PreGamePlacingPiece(road)) without ending the turn;
outside pregame it installs DuringTurnAfterRoll. -/
def buy_settlement (g : Game) (node : Nat) : Except Err (Game × List Ev) := do
  let pc : Piece := ⟨.settlement, some (get_cur_player g)⟩
  let b ← g.board.place_piece pc node
  let g := { g with board := b }
  if is_in_pregame g.state.var then
    .ok (set_state g (mkState g.id (.preGamePlacingPiece .road)))
  else
    .ok (set_state g (mkState g.id .duringTurnAfterRoll))

/-- Translation of `Game.__deepcopy__`.  The copy policy, field by
field over `__dict__`: the observer registry becomes a NEW set object
(`set(v)`) holding the same observer references; the state object and
the undo manager are copied by reference; every other field is
deep-copied.  Fresh object identities for the copy are drawn from
`fresh` (the new game gets `fresh`, its new observer set `fresh + 1`,
its deep-copied board `fresh + 2`). -/
def deepcopy (g : Game) (fresh : Nat) : Game :=
  { g with
    id := fresh,
    observers := ⟨fresh + 1, g.observers.members⟩,
    board := { g.board with id := fresh + 2 } }

/-- Translation of `Game.restore`: adopts the snapshot's observer set,
options, players, robber, log, dev-card state, counters and robber
tile; restores the snapshot's board contents into this Game's own
board object (`self.board.restore(game.board)` mutates in place, so
the board identity is this Game's); adopts the snapshot's state object
and repoints its back-reference to this Game
(`self.state.game = self`); does NOT touch the undo manager (the
assignment is commented out in the source) nor `player_to_resources`;
finally notifies observers. -/
def restore (self snap : Game) : Game × List Ev :=
  let g := { self with
    observers := snap.observers,
    options_pregame := snap.options_pregame,
    players := snap.players,
    board := { snap.board with id := self.board.id },
    robber := snap.robber,
    catanlog_on := snap.catanlog_on,
    state := { snap.state with gameRef := self.id },
    dev_card_state := snap.dev_card_state,
    cur_player := snap.cur_player,
    last_roll := snap.last_roll,
    last_player_to_roll := snap.last_player_to_roll,
    cur_turn := snap.cur_turn,
    robber_tile := snap.robber_tile }
  (g, [Ev.notify])

/-- Modelled from the spec: a command of the undo/redo engine pairs the
snapshot taken before the wrapped action with the one taken after. -/
structure Command where
  before : Game
  after : Game
  deriving DecidableEq

/-- Modelled from the spec: the undo/redo engine's two histories
(`undoredo.UndoManager`, module absent from src). -/
structure UndoMgrSt where
  undoStack : List Command
  redoStack : List Command
  deriving DecidableEq

/-- A Game together with the state of the undo/redo engine it
references.  Keeping the engine outside the Game record mirrors the
reference (`Game.undo_manager` holds the engine's identity) and breaks
the Python snapshot cycle: a snapshot shares the engine and never
contains it. -/
structure World where
  game : Game
  mgr : UndoMgrSt
  deriving DecidableEq

/-- Translation of `Game.undo` combined with the engine's `undo`
(modelled from the spec: fails with NothingToUndo on an empty undo
history; otherwise restores the Game to the command's before-snapshot
— through `Game.restore` — and moves the command to the redo
history).  `Game.undo` then calls `notify_observers` itself. -/
def World.undo (w : World) : Except Err (World × List Ev) :=
  match w.mgr.undoStack with
  | [] => .error .nothingToUndo
  | c :: rest =>
    let (g, evs) := restore w.game c.before
    .ok (⟨g, ⟨rest, c :: w.mgr.redoStack⟩⟩, evs ++ [Ev.notify])

deriving instance DecidableEq for Except

/-! Concrete fixtures used by witnesses and counterexamples. -/

/-- A trivial coordinate library for closed evaluations. -/
def exHex : HexLib := ⟨fun _ => [], fun _ => [], []⟩

/-- A small coordinate library: tile 5 touches nodes 10 and 11. -/
def exHex7 : HexLib := ⟨fun t => if t == 5 then [10, 11] else [], fun _ => [], []⟩

/-- An empty, locked board with identity 2. -/
def exBoard : Board := ⟨2, [], [], [], true⟩

/-- A game in the main-game state DuringTurnAfterRoll: identity 0,
observer set identity 1 with one member, board identity 2, state
identity 3, undo-engine reference 4, current player alice. -/
def exGame : Game :=
  ⟨0, ⟨1, [100]⟩, 4, "on",
   [⟨1, "alice", "green"⟩, ⟨2, "bob", "blue"⟩], exBoard,
   ⟨.robber, none⟩, true, ⟨3, 0, .duringTurnAfterRoll⟩, .notPlayed,
   some ⟨1, "alice", "green"⟩, none, none, 0, none, []⟩

/-- A snapshot value differing from `exGame` in its turn counter. -/
def exSnap : Game := { exGame with cur_turn := 5 }

/-- A world whose undo history holds one command. -/
def exWorld : World := ⟨exGame, ⟨[⟨exSnap, exGame⟩], []⟩⟩

/-- A next-player function returning seat-2 bob (stands in for the
state machine's `next_player`). -/
def nextB : StateVariant → Player → List Player → Player :=
  fun _ _ _ => ⟨2, "bob", "blue"⟩

/-- An agent hook that does nothing (never reached in the witnesses). -/
def agentNone : Game → Game × List Ev := fun g => (g, [])

/-! Claim theorems. -/

/-- C8: constructing a Player with a seat inside 1..4 succeeds with the
name and color lowercased and space-stripped; a seat outside 1..4
fails (the InvalidPlayer failure of the spec's taxonomy). -/
theorem C8_player_construction (seat : Int) (name color : String) :
    (1 ≤ seat ∧ seat ≤ 4 →
      Player.make seat name color = .ok ⟨seat, pnorm name, pnorm color⟩) ∧
    (¬(1 ≤ seat ∧ seat ≤ 4) →
      Player.make seat name color = .error .invalidPlayer) := by
  unfold Player.make
  constructor
  · intro h; rw [if_pos h]
  · intro h; rw [if_neg h]

/-- Witness for C8: seat 2 succeeds with normalized fields, seat 5
fails. -/
theorem C8_player_construction_witness :
    Player.make 2 "A lice" "Gre en" = .ok ⟨2, "alice", "green"⟩ ∧
    Player.make 5 "x" "y" = .error .invalidPlayer := by
  constructor
  · have h := (C8_player_construction 2 "A lice" "Gre en").1 (by decide)
    rw [h]; decide
  · exact (C8_player_construction 5 "x" "y").2 (by decide)

/-- C9: Player equality is by the triple (seat, name, color) — and
False against None — equal Players have equal hashes, and the hash is
a function of (seat, name, color). -/
theorem C9_player_eq_hash (p q : Player) :
    (Player.eq p (some q) = true ↔
      (p.seat = q.seat ∧ p.name = q.name ∧ p.color = q.color)) ∧
    Player.eq p none = false ∧
    (Player.eq p (some q) = true → Player.hash p = Player.hash q) ∧
    (p.seat = q.seat → p.name = q.name → p.color = q.color →
      Player.hash p = Player.hash q) := by
  have hiff : Player.eq p (some q) = true ↔
      (p.seat = q.seat ∧ p.name = q.name ∧ p.color = q.color) := by
    unfold Player.eq
    simp only [Bool.and_eq_true, beq_iff_eq]
    tauto
  have hhash : p.name = q.name → p.color = q.color →
      Player.hash p = Player.hash q := by
    intro hn hc
    unfold Player.hash Player.repr
    rw [hn, hc]
  refine ⟨hiff, rfl, ?_, ?_⟩
  · intro h
    rcases hiff.mp h with ⟨_, hn, hc⟩
    exact hhash hn hc
  · intro _ hn hc
    exact hhash hn hc

/-- Witness for C9 at two concrete equal players. -/
theorem C9_player_eq_hash_witness :
    Player.eq ⟨2, "ab", "red"⟩ (some ⟨2, "ab", "red"⟩) = true ∧
    Player.hash ⟨2, "ab", "red"⟩ = Player.hash ⟨2, "ab", "red"⟩ := by
  constructor
  · exact (C9_player_eq_hash ⟨2, "ab", "red"⟩ ⟨2, "ab", "red"⟩).1.mpr
      ⟨rfl, rfl, rfl⟩
  · exact (C9_player_eq_hash ⟨2, "ab", "red"⟩ ⟨2, "ab", "red"⟩).2.2.2 rfl rfl rfl

/-- C10: `set_players` on the empty list fails on the unguarded
`players[0]` (no sentinel current player is installed); on a non-empty
list it installs the list and makes its first element the current
player, then notifies observers. -/
theorem C10_set_players (g : Game) (ps : List Player) :
    (ps = [] → set_players g ps = .error .indexError) ∧
    (∀ p rest, ps = p :: rest → 1 ≤ p.seat → p.seat ≤ 4 →
      set_players g ps =
        .ok ({ g with
                players := ps,
                cur_player := some ⟨p.seat, pnorm p.name, pnorm p.color⟩ },
             [Ev.notify])) := by
  constructor
  · intro h; subst h; rfl
  · intro p rest h h1 h4
    subst h
    simp only [set_players, set_cur_player, Player.make]
    rw [if_pos ⟨h1, h4⟩]
    rfl

/-- Witness for C10: the empty list fails, a singleton list installs
its head as current player before the notification. -/
theorem C10_set_players_witness :
    set_players exGame [] = .error .indexError ∧
    set_players exGame [⟨2, "Bo b", "Blue"⟩] =
      .ok ({ exGame with
              players := [⟨2, "Bo b", "Blue"⟩],
              cur_player := some ⟨2, pnorm "Bo b", pnorm "Blue"⟩ },
           [Ev.notify]) :=
  ⟨(C10_set_players exGame []).1 rfl,
   (C10_set_players exGame [⟨2, "Bo b", "Blue"⟩]).2 ⟨2, "Bo b", "Blue"⟩ []
     rfl (by decide) (by decide)⟩

/-- C1 counterexample: `__deepcopy__` does NOT preserve the identity of
the observer registry — the copy gets a fresh set object (with the
same members) — while it DOES preserve the identity of the current
state object, which the claim excludes from the shared fields. -/
theorem C1_deepcopy_counterexample :
    (deepcopy exGame 10).observers.id ≠ exGame.observers.id ∧
    (deepcopy exGame 10).observers.members = exGame.observers.members ∧
    (deepcopy exGame 10).state.id = exGame.state.id := by
  decide

/-- C1 amended: the copy shares by reference the undo engine and the
current state object, gives the copy a fresh observer SET holding the
same observer references, and deep-copies board, players and counters;
`restore` keeps the restored Game's own undo engine, adopts the
snapshot's observer set, restores the snapshot's board contents into
the Game's own board object, and repoints the adopted state's
back-reference to the restoring Game. -/
theorem C1_snapshot_policy (g self snap : Game) (fresh : Nat) :
    ((deepcopy g fresh).undo_manager = g.undo_manager ∧
     (deepcopy g fresh).state = g.state ∧
     (deepcopy g fresh).observers.members = g.observers.members ∧
     (deepcopy g fresh).observers.id = fresh + 1 ∧
     (deepcopy g fresh).id = fresh ∧
     (deepcopy g fresh).board.id = fresh + 2 ∧
     (deepcopy g fresh).board.pieces = g.board.pieces ∧
     (deepcopy g fresh).players = g.players ∧
     (deepcopy g fresh).cur_turn = g.cur_turn ∧
     (deepcopy g fresh).cur_player = g.cur_player) ∧
    ((restore self snap).1.undo_manager = self.undo_manager ∧
     (restore self snap).1.observers = snap.observers ∧
     (restore self snap).1.state.var = snap.state.var ∧
     (restore self snap).1.state.id = snap.state.id ∧
     (restore self snap).1.state.gameRef = self.id ∧
     (restore self snap).1.board.id = self.board.id ∧
     (restore self snap).1.board.pieces = snap.board.pieces ∧
     (restore self snap).2 = [Ev.notify]) :=
  ⟨⟨rfl, rfl, rfl, rfl, rfl, rfl, rfl, rfl, rfl, rfl⟩,
   ⟨rfl, rfl, rfl, rfl, rfl, rfl, rfl, rfl⟩⟩

/-- C2: at a concrete main-game configuration whose state's
`can_end_game()` is false, `end_turn` nevertheless runs `Game.end`
(once — via the unconditional call in the non-pregame branch), and
when `can_end_game()` is true it runs `Game.end` twice; the claim's
"runs if and only if `can_end_game()` returns true" fails in the code. -/
theorem C2_end_turn_gate_violated :
    (end_turn exHex nextB (fun _ => false) agentNone agentNone exGame).map
      (fun r => r.2.count Ev.gameEnd) = .ok 1 ∧
    (end_turn exHex nextB (fun _ => true) agentNone agentNone exGame).map
      (fun r => r.2.count Ev.gameEnd) = .ok 2 := by
  decide

/-- C3 counterexample: a completed `undo` on a world with a non-empty
undo history fires the observer notification twice — once from
`Game.restore` and once from `Game.undo` — not once. -/
theorem C3_undo_counterexample :
    (World.undo exWorld).map (fun r => r.2.count Ev.notify) = .ok 2 ∧
    (World.undo exWorld).map (fun r => r.2.count Ev.notify) ≠ .ok 1 := by
  decide

/-- C3 amended: for every world with a non-empty undo history, `undo`
succeeds and notifies the observers exactly twice (once inside
`Game.restore`, once more in `Game.undo` itself). -/
theorem C3_undo_notifies_twice (w : World) (h : w.mgr.undoStack ≠ []) :
    (World.undo w).map (fun r => r.2.count Ev.notify) = .ok 2 := by
  match hs : w.mgr.undoStack with
  | [] => exact absurd hs h
  | c :: rest =>
    simp only [World.undo, hs, restore, Except.map]
    decide

/-- Witness for C3 at the concrete one-command world. -/
theorem C3_undo_notifies_twice_witness :
    (World.undo exWorld).map (fun r => r.2.count Ev.notify) = .ok 2 :=
  C3_undo_notifies_twice exWorld (by decide)

/-- C4 counterexample: immediately after `play_knight` (the dev card is
in the played state and the installed state is MoveRobberUsingKnight),
rolling a 7 installs MoveRobber — not MoveRobberUsingKnight as the
claim's knight clause asserts. -/
theorem C4_roll_counterexample :
    (play_knight exGame).1.state.var = .moveRobberUsingKnight ∧
    (play_knight exGame).1.dev_card_state = .played ∧
    (roll (play_knight exGame).1 7).1.state.var = .moveRobber ∧
    StateVariant.moveRobber ≠ StateVariant.moveRobberUsingKnight := by
  decide

/-- C4 amended: `roll` installs MoveRobber on a 7 and
DuringTurnAfterRoll on any other value, regardless of prior state and
of the dev-card state (MoveRobberUsingKnight is installed only by
`play_knight`, never by `roll`), and records the roll and the current
player as the roller. -/
theorem C4_roll_transitions (g : Game) (n : Nat) :
    (roll g n).1.state.var =
      (if n == 7 then .moveRobber else .duringTurnAfterRoll) ∧
    (roll g n).1.last_roll = some n ∧
    (roll g n).1.last_player_to_roll = some (get_cur_player g) := by
  cases h : (n == 7) <;>
    simp [roll, set_state, mkState, is_in_game, h]

/-- C6 counterexample: `reset` writes the Game's state field directly
(not through `set_state`), so after a `reset` from an in-game state the
board stays locked while the installed state is NotInGame — the
locked-iff-in-game coupling is broken by this transition. -/
theorem C6_reset_counterexample :
    (reset exGame).1.state.var = .notInGame ∧
    (reset exGame).1.board.state_locked = true ∧
    (reset exGame).1.board.state_locked ≠
      is_in_game (reset exGame).1.state.var := by
  decide

/-- C6 amended: every transition performed through `set_state`
re-derives the board lock from the newly installed state (locked iff
`is_in_game`), but `reset` changes the state field without touching
the board, so the coupling holds for `set_state` transitions only. -/
theorem C6_lock_rederived_by_set_state (g : Game) (s : StateObj) (g2 : Game) :
    (set_state g s).1.board.state_locked = is_in_game s.var ∧
    (set_state g s).1.state = s ∧
    (reset g2).1.board = g2.board ∧
    (reset g2).1.state.var = .notInGame := by
  refine ⟨?_, ?_, rfl, rfl⟩ <;>
    cases h : is_in_game s.var <;>
      simp [set_state, Board.lock, Board.unlock, h]

/-- Reduction of an Except bind on a success value. -/
theorem bind_ok_eq {ε α β : Type} (a : α) (f : α → Except ε β) :
    ((Except.ok a : Except ε α) >>= f) = f a := rfl

/-- Inversion of a successful board placement: the resulting board is
the input board with the piece appended under its coordinate kind and
recorded for its owner. -/
theorem place_piece_ok (b : Board) (pc : Piece) (coord : Nat) (b' : Board)
    (h : b.place_piece pc coord = .ok b') :
    b' = { b with
           pieces := b.pieces ++ [((coordKind pc.ptype, coord), pc)],
           player_to_pieces :=
             addOwned b.player_to_pieces pc.owner (coord, pc.ptype) } := by
  unfold Board.place_piece at h
  dsimp only at h
  split at h
  · exact Except.noConfusion h
  · split at h
    · exact Except.noConfusion h
    · injection h with h2
      exact h2.symm

/-- A valid-seat player is installed as current player normalized. -/
theorem set_cur_player_ok (g : Game) (p : Player)
    (h1 : 1 ≤ p.seat) (h4 : p.seat ≤ 4) :
    set_cur_player g p =
      .ok { g with cur_player := some ⟨p.seat, pnorm p.name, pnorm p.color⟩ } := by
  unfold set_cur_player Player.make
  rw [if_pos ⟨h1, h4⟩]
  rfl

/-- Behaviour of `end_turn` from a pregame state whose `can_end_game`
is false, advancing to a valid-seat, non-agent player: the turn
counter advances, the advanced player (normalized) becomes current, the
next pregame placing state (settlement) is installed, and the board's
pieces are untouched. -/
theorem end_turn_pregame (hex : HexLib)
    (next : StateVariant → Player → List Player → Player)
    (canEnd : StateVariant → Bool)
    (aR aB : Game → Game × List Ev) (g : Game)
    (hpre : is_in_pregame g.state.var = true)
    (hce : canEnd g.state.var = false)
    (h1 : 1 ≤ (next g.state.var (get_cur_player g) g.players).seat)
    (h4 : (next g.state.var (get_cur_player g) g.players).seat ≤ 4)
    (ha1 : isAgent1 (pnorm (next g.state.var (get_cur_player g) g.players).name)
      = false)
    (ha2 : isAgent2 (pnorm (next g.state.var (get_cur_player g) g.players).name)
      = false) :
    end_turn hex next canEnd aR aB g =
      .ok ({ g with
              cur_player := some
                ⟨(next g.state.var (get_cur_player g) g.players).seat,
                 pnorm (next g.state.var (get_cur_player g) g.players).name,
                 pnorm (next g.state.var (get_cur_player g) g.players).color⟩,
              cur_turn := g.cur_turn + 1,
              dev_card_state := .notPlayed,
              state := mkState g.id (.preGamePlacingPiece .settlement),
              board := g.board.lock },
            [Ev.notify, Ev.notify]) := by
  unfold end_turn
  rw [set_cur_player_ok g _ h1 h4]
  simp only [bind_ok_eq, set_dev_card_state, set_state, mkState, hce, hpre,
    Bool.false_eq_true, ite_true, ite_false, if_true, if_false,
    eq_self_iff_true, List.nil_append, List.append_nil]
  simp only [is_in_game, is_in_pregame, ha1, ha2, Bool.false_eq_true,
    ite_true, ite_false, if_true, if_false, eq_self_iff_true,
    List.nil_append, List.append_nil]
  rfl

/-- C5: in pregame, `buy_settlement` places the settlement and
transitions directly to PreGamePlacingPiece(road) without ending the
turn (current player and turn counter unchanged), while `buy_road`
places the road and then ends the turn — advancing the current player
to the state machine's `next_player` and incrementing the turn counter
— without an explicit end-turn action; outside pregame both install
DuringTurnAfterRoll.  The `next`/`canEnd` parameters stand for the
absent state machine's capabilities; the pregame state's
`can_end_game` is false and the advanced player has a valid seat and a
non-agent name. -/
theorem C5_pregame_buy_asymmetry (hex : HexLib)
    (next : StateVariant → Player → List Player → Player)
    (canEnd : StateVariant → Bool)
    (aR aB : Game → Game × List Ev)
    (g : Game) (node edge : Nat) (b1 b2 : Board) :
    (is_in_pregame g.state.var = true →
      g.board.place_piece ⟨.settlement, some (get_cur_player g)⟩ node = .ok b1 →
      ∃ g' evs, buy_settlement g node = .ok (g', evs) ∧
        g'.state.var = .preGamePlacingPiece .road ∧
        g'.cur_player = g.cur_player ∧
        g'.cur_turn = g.cur_turn ∧
        ((coordKind .settlement, node),
          (⟨.settlement, some (get_cur_player g)⟩ : Piece)) ∈ g'.board.pieces) ∧
    (is_in_pregame g.state.var = true →
      g.board.place_piece ⟨.road, some (get_cur_player g)⟩ edge = .ok b2 →
      canEnd g.state.var = false →
      1 ≤ (next g.state.var (get_cur_player g) g.players).seat →
      (next g.state.var (get_cur_player g) g.players).seat ≤ 4 →
      isAgent1 (pnorm (next g.state.var (get_cur_player g) g.players).name)
        = false →
      isAgent2 (pnorm (next g.state.var (get_cur_player g) g.players).name)
        = false →
      ∃ g' evs, buy_road hex next canEnd aR aB g edge = .ok (g', evs) ∧
        g'.state.var = .preGamePlacingPiece .settlement ∧
        g'.cur_player = some
          ⟨(next g.state.var (get_cur_player g) g.players).seat,
           pnorm (next g.state.var (get_cur_player g) g.players).name,
           pnorm (next g.state.var (get_cur_player g) g.players).color⟩ ∧
        g'.cur_turn = g.cur_turn + 1 ∧
        ((coordKind .road, edge),
          (⟨.road, some (get_cur_player g)⟩ : Piece)) ∈ g'.board.pieces) ∧
    (is_in_pregame g.state.var = false →
      g.board.place_piece ⟨.settlement, some (get_cur_player g)⟩ node = .ok b1 →
      ∃ g' evs, buy_settlement g node = .ok (g', evs) ∧
        g'.state.var = .duringTurnAfterRoll ∧
        g'.cur_player = g.cur_player ∧ g'.cur_turn = g.cur_turn) ∧
    (is_in_pregame g.state.var = false →
      g.board.place_piece ⟨.road, some (get_cur_player g)⟩ edge = .ok b2 →
      ∃ g' evs, buy_road hex next canEnd aR aB g edge = .ok (g', evs) ∧
        g'.state.var = .duringTurnAfterRoll ∧
        g'.cur_player = g.cur_player ∧ g'.cur_turn = g.cur_turn) := by
  refine ⟨?_, ?_, ?_, ?_⟩
  · intro hpre hpl
    have hb := place_piece_ok _ _ _ _ hpl
    refine ⟨(set_state { g with board := b1 }
              (mkState g.id (.preGamePlacingPiece .road))).1,
            (set_state { g with board := b1 }
              (mkState g.id (.preGamePlacingPiece .road))).2,
            ?_, rfl, rfl, rfl, ?_⟩
    · unfold buy_settlement
      dsimp only
      rw [hpl, bind_ok_eq]
      simp only [hpre, ite_true, if_true, eq_self_iff_true]
    · show _ ∈ b1.pieces
      rw [hb]
      simp
  · intro hpre hpl hce h1 h4 ha1 ha2
    have hb := place_piece_ok _ _ _ _ hpl
    have het := end_turn_pregame hex next canEnd aR aB { g with board := b2 }
      hpre hce h1 h4 ha1 ha2
    refine ⟨{ g with
              board := b2.lock,
              cur_player := some
                ⟨(next g.state.var (get_cur_player g) g.players).seat,
                 pnorm (next g.state.var (get_cur_player g) g.players).name,
                 pnorm (next g.state.var (get_cur_player g) g.players).color⟩,
              cur_turn := g.cur_turn + 1,
              dev_card_state := .notPlayed,
              state := mkState g.id (.preGamePlacingPiece .settlement) },
            [Ev.notify, Ev.notify, Ev.notify], ?_, rfl, rfl, rfl, ?_⟩
    · unfold buy_road
      dsimp only
      rw [hpl, bind_ok_eq]
      simp only [hpre, ite_true, if_true, eq_self_iff_true]
      rw [het]
      rfl
    · show _ ∈ (Board.lock b2).pieces
      rw [show (Board.lock b2).pieces = b2.pieces from rfl, hb]
      simp
  · intro hpre hpl
    refine ⟨(set_state { g with board := b1 }
              (mkState g.id .duringTurnAfterRoll)).1,
            (set_state { g with board := b1 }
              (mkState g.id .duringTurnAfterRoll)).2, ?_, rfl, rfl, rfl⟩
    unfold buy_settlement
    dsimp only
    rw [hpl, bind_ok_eq]
    simp only [hpre, Bool.false_eq_true, ite_false, if_false]
  · intro hpre hpl
    refine ⟨(set_state { g with board := b2 }
              (mkState g.id .duringTurnAfterRoll)).1,
            (set_state { g with board := b2 }
              (mkState g.id .duringTurnAfterRoll)).2, ?_, rfl, rfl, rfl⟩
    unfold buy_road
    dsimp only
    rw [hpl, bind_ok_eq]
    simp only [hpre, Bool.false_eq_true, ite_false, if_false]

/-- A `can_end_game` that is never true (pregame states in the real
state machine cannot end the game). -/
def canEndNever : StateVariant → Bool := fun _ => false

/-- `exGame` placed into the pregame settlement-placing state. -/
def exGamePre : Game :=
  { exGame with state := ⟨3, 0, .preGamePlacingPiece .settlement⟩ }

/-- The board after the witness settlement placement at node 5. -/
def exB1 : Board :=
  ⟨2, [], [((1, 5), ⟨.settlement, some ⟨1, "alice", "green"⟩⟩)],
   [(⟨1, "alice", "green"⟩, [(5, PieceType.settlement)])], true⟩

/-- The board after the witness road placement at edge 6. -/
def exB2 : Board :=
  ⟨2, [], [((0, 6), ⟨.road, some ⟨1, "alice", "green"⟩⟩)],
   [(⟨1, "alice", "green"⟩, [(6, PieceType.road)])], true⟩

/-- Witness for C5 at a concrete pregame game: buying a settlement at
node 5 moves to road placement without advancing the player; buying a
road at edge 6 ends the turn and advances to bob. -/
theorem C5_pregame_buy_asymmetry_witness :
    (∃ g' evs, buy_settlement exGamePre 5 = .ok (g', evs) ∧
      g'.state.var = .preGamePlacingPiece .road ∧
      g'.cur_player = exGamePre.cur_player ∧
      g'.cur_turn = exGamePre.cur_turn ∧
      ((coordKind .settlement, 5),
        (⟨.settlement, some (get_cur_player exGamePre)⟩ : Piece))
        ∈ g'.board.pieces) ∧
    (∃ g' evs,
      buy_road exHex nextB canEndNever agentNone agentNone exGamePre 6 =
        .ok (g', evs) ∧
      g'.state.var = .preGamePlacingPiece .settlement ∧
      g'.cur_player = some
        ⟨(nextB exGamePre.state.var (get_cur_player exGamePre)
            exGamePre.players).seat,
         pnorm (nextB exGamePre.state.var (get_cur_player exGamePre)
            exGamePre.players).name,
         pnorm (nextB exGamePre.state.var (get_cur_player exGamePre)
            exGamePre.players).color⟩ ∧
      g'.cur_turn = exGamePre.cur_turn + 1 ∧
      ((coordKind .road, 6),
        (⟨.road, some (get_cur_player exGamePre)⟩ : Piece))
        ∈ g'.board.pieces) :=
  ⟨(C5_pregame_buy_asymmetry exHex nextB canEndNever agentNone agentNone
      exGamePre 5 6 exB1 exB2).1 (by decide) (by decide),
   (C5_pregame_buy_asymmetry exHex nextB canEndNever agentNone agentNone
      exGamePre 5 6 exB1 exB2).2.1 (by decide) (by decide) (by decide)
      (by decide) (by decide) (by decide) (by decide)⟩

/-- Spec-side description (stated from the spec's words, for the C7
refinement comparison): player p owns a settlement or city piece
recorded on the board at the given node. -/
def owns_piece_at (g : Game) (p : Player) (node : Nat) : Prop :=
  ∃ e, e ∈ g.board.pieces ∧ e.1.2 = node ∧
    (e.2.ptype = .settlement ∨ e.2.ptype = .city) ∧ e.2.owner = some p

instance (g : Game) (p : Player) (node : Nat) :
    Decidable (owns_piece_at g p node) :=
  inferInstanceAs (Decidable (∃ e, e ∈ g.board.pieces ∧ e.1.2 = node ∧
    (e.2.ptype = .settlement ∨ e.2.ptype = .city) ∧ e.2.owner = some p))

/-- Well-formedness used by C7: the settlement/city entries of the
board occupy pairwise distinct coordinates (the spec's at-most-one-
piece-per-coordinate invariant restricted to what C7 needs; decidable
so witnesses can discharge it by evaluation). -/
def nodupOccupancy (b : Board) : Prop :=
  ((b.pieces.filter (fun e => e.2.ptype == PieceType.settlement ||
      e.2.ptype == PieceType.city)).map (fun e => e.1.2)).Nodup

instance (b : Board) : Decidable (nodupOccupancy b) :=
  inferInstanceAs (Decidable (List.Nodup _))

/-- The membership test of the two-element kind list used by
`stealable_players` is the disjunction of the two kind tests. -/
theorem contains_pair_eq (pt : PieceType) :
    ([PieceType.settlement, PieceType.city].contains pt) =
      (pt == PieceType.settlement || pt == PieceType.city) := by
  cases pt <;> rfl

/-- Membership in a set-insertion. -/
theorem mem_setAdd (acc : List (Option Player)) (o o' : Option Player) :
    o ∈ setAdd acc o' ↔ o ∈ acc ∨ o = o' := by
  unfold setAdd
  by_cases h : o' ∈ acc
  · rw [if_pos h]
    constructor
    · exact Or.inl
    · rintro (h1 | rfl)
      exacts [h1, h]
  · rw [if_neg h]
    simp [List.mem_append]

/-- Membership in the accumulation loop of `stealable_players`. -/
theorem mem_steal_loop (g : Game) (l : List Nat)
    (acc : List (Option Player)) (o : Option Player) :
    o ∈ l.foldl (fun acc node =>
        match firstOwnerAt g node with
        | none => acc
        | some ow => setAdd acc ow) acc ↔
      o ∈ acc ∨ ∃ n, n ∈ l ∧ firstOwnerAt g n = some o := by
  induction l generalizing acc with
  | nil => simp
  | cons n l ih =>
    rw [List.foldl_cons, ih]
    cases hfo : firstOwnerAt g n with
    | none =>
      simp only [List.mem_cons]
      constructor
      · rintro (h1 | ⟨m, hm, he⟩)
        · exact Or.inl h1
        · exact Or.inr ⟨m, Or.inr hm, he⟩
      · rintro (h1 | ⟨m, (rfl | hm), he⟩)
        · exact Or.inl h1
        · rw [hfo] at he; exact Option.noConfusion he
        · exact Or.inr ⟨m, hm, he⟩
    | some ow =>
      rw [mem_setAdd]
      simp only [List.mem_cons]
      constructor
      · rintro ((h1 | rfl) | ⟨m, hm, he⟩)
        · exact Or.inl h1
        · exact Or.inr ⟨n, Or.inl rfl, hfo⟩
        · exact Or.inr ⟨m, Or.inr hm, he⟩
      · rintro (h1 | ⟨m, (rfl | hm), he⟩)
        · exact Or.inl (Or.inl h1)
        · rw [hfo] at he
          exact Or.inl (Or.inr (Option.some_inj.mp he).symm)
        · exact Or.inr ⟨m, hm, he⟩

/-- Under the distinct-coordinate invariant, at most one entry passes
the coordinate-and-kind filter of `get_pieces` at any node. -/
theorem filter_keyed_len (node : Nat) :
    ∀ l : List ((Nat × Nat) × Piece),
      ((l.filter (fun e => e.2.ptype == PieceType.settlement ||
          e.2.ptype == PieceType.city)).map (fun e => e.1.2)).Nodup →
      (l.filter (fun e => e.1.2 == node &&
          [PieceType.settlement, PieceType.city].contains e.2.ptype)).length
        ≤ 1 := by
  intro l
  induction l with
  | nil => intro _; simp
  | cons e l ih =>
    intro h
    rw [List.filter_cons] at h
    rw [List.filter_cons]
    by_cases hA : (e.2.ptype == PieceType.settlement ||
        e.2.ptype == PieceType.city) = true
    · rw [if_pos hA, List.map_cons, List.nodup_cons] at h
      obtain ⟨hni, hnd⟩ := h
      by_cases hK : (e.1.2 == node) = true
      · rw [if_pos (by rw [contains_pair_eq]; simp [hK, hA])]
        have hnil : l.filter (fun e => e.1.2 == node &&
            [PieceType.settlement, PieceType.city].contains e.2.ptype) = [] := by
          rw [List.eq_nil_iff_forall_not_mem]
          intro x hx
          rw [List.mem_filter] at hx
          obtain ⟨hxl, hxp⟩ := hx
          rw [contains_pair_eq, Bool.and_eq_true] at hxp
          apply hni
          rw [List.mem_map]
          refine ⟨x, ?_, ?_⟩
          · rw [List.mem_filter]
            exact ⟨hxl, hxp.2⟩
          · have h1 : x.1.2 = node := by
              have := hxp.1; simpa [beq_iff_eq] using this
            have h2 : e.1.2 = node := by simpa [beq_iff_eq] using hK
            rw [h1, h2]
        rw [hnil]
        simp
      · rw [if_neg (by
          rw [contains_pair_eq, Bool.and_eq_true]
          intro hc
          exact hK hc.1)]
        exact ih hnd
    · rw [if_neg hA] at h
      rw [if_neg (by
        rw [contains_pair_eq, Bool.and_eq_true]
        intro hc
        exact hA hc.2)]
      exact ih h

/-- `get_pieces` returns at most one settlement/city at a node on a
well-formed board. -/
theorem get_pieces_len_le_one (b : Board) (h : nodupOccupancy b)
    (node : Nat) :
    (b.get_pieces [PieceType.settlement, PieceType.city] node).length ≤ 1 := by
  unfold Board.get_pieces
  rw [List.length_map]
  exact filter_keyed_len node b.pieces h

/-- In a list of length at most one, the head is the only member. -/
theorem head_eq_mem_of_len_le_one {α : Type} (l : List α)
    (h : l.length ≤ 1) (x : α) : l.head? = some x ↔ x ∈ l := by
  match l with
  | [] => simp
  | [a] => simp [eq_comm]
  | a :: b :: t => simp at h

/-- Membership in the `get_pieces` result, spelled out over the raw
board entries. -/
theorem mem_get_pieces (b : Board) (node : Nat) (pc : Piece) :
    pc ∈ b.get_pieces [PieceType.settlement, PieceType.city] node ↔
      ∃ e, e ∈ b.pieces ∧ e.1.2 = node ∧
        (e.2.ptype = .settlement ∨ e.2.ptype = .city) ∧ e.2 = pc := by
  unfold Board.get_pieces
  simp only [List.mem_map, List.mem_filter, contains_pair_eq,
    Bool.and_eq_true, Bool.or_eq_true, beq_iff_eq]
  constructor
  · rintro ⟨e, ⟨he, hc, ht⟩, rfl⟩
    exact ⟨e, he, hc, ht, rfl⟩
  · rintro ⟨e, he, hc, ht, rfl⟩
    exact ⟨e, ⟨he, hc, ht⟩, rfl⟩

/-- On a well-formed board, the first-owner read performed by the
`stealable_players` loop finds owner p exactly when p owns a
settlement/city at the node (the spec-side description). -/
theorem firstOwnerAt_eq (g : Game) (hwf : nodupOccupancy g.board)
    (node : Nat) (p : Player) :
    firstOwnerAt g node = some (some p) ↔ owns_piece_at g p node := by
  unfold firstOwnerAt owns_piece_at
  rw [Option.map_eq_some']
  constructor
  · rintro ⟨pc, hh, hown⟩
    have hm := (head_eq_mem_of_len_le_one _
      (get_pieces_len_le_one g.board hwf node) pc).mp hh
    obtain ⟨e, he, hc, ht, he2⟩ := (mem_get_pieces g.board node pc).mp hm
    exact ⟨e, he, hc, ht, by rw [he2, hown]⟩
  · rintro ⟨e, he, hc, ht, hown⟩
    refine ⟨e.2, ?_, hown⟩
    rw [head_eq_mem_of_len_le_one _ (get_pieces_len_le_one g.board hwf node)]
    exact (mem_get_pieces g.board node e.2).mpr ⟨e, he, hc, ht, rfl⟩

/-- Membership in `stealable_players` when the robber tile is set:
the owners found by the loop, with the current player excluded. -/
theorem mem_stealable (hex : HexLib) (g : Game) (p : Player) (rt : Nat)
    (hrt : g.robber_tile = some rt) :
    some p ∈ stealable_players hex g ↔
      ((∃ n, n ∈ hex.nodes_touching_tile rt ∧
          firstOwnerAt g n = some (some p)) ∧ p ≠ get_cur_player g) := by
  unfold stealable_players
  rw [hrt]
  dsimp only
  split
  · rename_i hmem
    rw [List.mem_filter, mem_steal_loop]
    simp only [List.not_mem_nil, false_or, bne_iff_ne, ne_eq,
      Option.some.injEq]
  · rename_i hmem
    rw [mem_steal_loop]
    simp only [List.not_mem_nil, false_or]
    constructor
    · intro hx
      refine ⟨hx, ?_⟩
      rintro rfl
      rw [mem_steal_loop] at hmem
      simp only [List.not_mem_nil, false_or] at hmem
      exact hmem hx
    · rintro ⟨hx, _⟩
      exact hx

/-- C7: `stealable_players` returns exactly the players owning a
settlement or city on a node adjacent to the robber's tile, excluding
the current player (and, vacuously, players with none); with no robber
tile set the result is empty.  Stated against the spec-side
description `owns_piece_at`, on a board whose settlement/city entries
occupy distinct coordinates. -/
theorem C7_stealable_players_spec (hex : HexLib) (g : Game) (p : Player)
    (hwf : nodupOccupancy g.board) :
    (g.robber_tile = none → stealable_players hex g = []) ∧
    (∀ rt, g.robber_tile = some rt →
      (some p ∈ stealable_players hex g ↔
        (p ≠ get_cur_player g ∧
         ∃ node, node ∈ hex.nodes_touching_tile rt ∧
           owns_piece_at g p node))) := by
  constructor
  · intro h
    unfold stealable_players
    rw [h]
  · intro rt hrt
    rw [mem_stealable hex g p rt hrt]
    rw [exists_congr fun n =>
      and_congr_right fun _ => firstOwnerAt_eq g hwf n p]
    exact and_comm

/-- The board of the C7 witness: bob's settlement on node 10. -/
def exBoard7 : Board :=
  ⟨2, [], [((1, 10), ⟨.settlement, some ⟨2, "bob", "blue"⟩⟩)],
   [(⟨2, "bob", "blue"⟩, [(10, PieceType.settlement)])], true⟩

/-- The game of the C7 witness: robber on tile 5, alice to play. -/
def exGame7 : Game := { exGame with board := exBoard7, robber_tile := some 5 }

/-- Witness for C7: with the robber on tile 5 (touching nodes 10, 11)
and bob's settlement on node 10, bob is stealable by alice. -/
theorem C7_stealable_players_spec_witness :
    some (⟨2, "bob", "blue"⟩ : Player) ∈ stealable_players exHex7 exGame7 :=
  ((C7_stealable_players_spec exHex7 exGame7 ⟨2, "bob", "blue"⟩
      (by decide)).2 5 rfl).mpr (by decide)

end Catan
